import Mathlib

/-!
# Big Drip Kicks — verification of the sale transaction engine

Shallow embedding of the POS sale engine of the Big-Drip-Kicks repository:

* the client-side cart calculator and `processSale` routine
  (`src/components/Sales.tsx`),
* the PostgreSQL trigger pipeline installed by the migrations
  (`supabase/migrations/*.sql` plus the quick-sale trigger migration),
* the low-stock-alert acknowledgement hook (`useLowStockAlerts`).

The database state is modelled as lists of rows; each SQL statement becomes a
Lean function from states to states (or to `Except PgError`, since a raised
exception aborts the enclosing statement).  Money amounts are modelled as
exact rationals, quantities and stock as integers.

Trigger topology (after all migrations are applied, in the order documented
in the repository's database setup guide, `quick_sale_triggers` last):

* `sales` BEFORE INSERT: `set_sale_number_trigger` and
  `trigger_set_sale_number`, both executing the (last replaced, sequence
  based) `set_sale_number()`.
* `sales` AFTER INSERT: `audit_sales_trigger` (`create_audit_log`) and
  `sales_audit_trigger` (`audit_trigger_function`) — two audit rows.
* `sale_items` BEFORE INSERT: `validate_stock_before_sale_trigger`.
* `sale_items` AFTER INSERT, in trigger-name order:
  `audit_sale_items_trigger`, `calculate_sale_totals_trigger`,
  `trigger_update_product_stock`, `update_product_stock_trigger` — the last
  two both execute `update_product_stock()`, so the stock is decremented
  twice per sold item.
* `products` AFTER UPDATE, in trigger-name order: `audit_products_trigger`,
  `check_low_stock_trigger`, `products_audit_trigger`,
  `trigger_check_low_stock` — two audit rows and two runs of
  `check_low_stock()` per stock update.

`check_low_stock()` (final version) runs
`INSERT INTO low_stock_alerts ... ON CONFLICT (product_id) DO UPDATE ...`,
but no migration ever creates a unique constraint or index on
`low_stock_alerts.product_id`; PostgreSQL therefore raises error 42P10
("there is no unique or exclusion constraint matching the ON CONFLICT
specification") whenever that INSERT is attempted, i.e. whenever the new
stock is at or below the threshold.  Above the threshold the function does
nothing.
-/

/-- `discount_type` enum of the `sales` table / `discountType` state of
`Sales.tsx` (`'flat' | 'percentage'`). -/
inductive DiscountType where
  | flat
  | percentage
deriving DecidableEq, Repr

/-- `payment_method` enum of the `sales` table. -/
inductive PaymentMethod where
  | cash
  | card
  | orange_money
  | mtn_money
  | bank
deriving DecidableEq, Repr

/-- One cart line of the `Sales.tsx` UI state: a product reference plus the
quantity, unit price and line total held in the client.  `total_price` is
client state (maintained as `quantity * unit_price` by the UI handlers but
sent to the server as-is). -/
structure CartItem where
  product_id : Nat
  quantity : Int
  unit_price : ℚ
  total_price : ℚ
deriving DecidableEq, Repr

/-- `calculateSubtotal` of `Sales.tsx`:
`cart.reduce((sum, item) => sum + item.total_price, 0)`. -/
def calculateSubtotal (cart : List CartItem) : ℚ :=
  cart.foldl (fun sum item => sum + item.total_price) 0

/-- `calculateDiscountAmount` of `Sales.tsx`: percentage discounts return
`subtotal * discountValue / 100` (no clamping of `discountValue`), flat
discounts return `discountValue` unchanged. -/
def calculateDiscountAmount (cart : List CartItem) (discountType : DiscountType)
    (discountValue : ℚ) : ℚ :=
  let subtotal := calculateSubtotal cart
  if discountType = .percentage then
    (subtotal * discountValue) / 100
  else
    discountValue

/-- `calculateTaxAmount` of `Sales.tsx`:
`(subtotal - discountAmount) * taxRate`. -/
def calculateTaxAmount (cart : List CartItem) (discountType : DiscountType)
    (discountValue taxRate : ℚ) : ℚ :=
  let subtotalAfterDiscount :=
    calculateSubtotal cart - calculateDiscountAmount cart discountType discountValue
  subtotalAfterDiscount * taxRate

/-- `calculateTotal` of `Sales.tsx`:
`subtotal - discountAmount + taxAmount`. -/
def calculateTotal (cart : List CartItem) (discountType : DiscountType)
    (discountValue taxRate : ℚ) : ℚ :=
  calculateSubtotal cart - calculateDiscountAmount cart discountType discountValue
    + calculateTaxAmount cart discountType discountValue taxRate

/-- `calculateChangeDue` of `Sales.tsx`:
`amountPaid > total ? amountPaid - total : 0`. -/
def calculateChangeDue (cart : List CartItem) (discountType : DiscountType)
    (discountValue taxRate amountPaid : ℚ) : ℚ :=
  let total := calculateTotal cart discountType discountValue taxRate
  if amountPaid > total then amountPaid - total else 0

/-- A row of `products` (the columns the sale engine reads or writes:
identity, stock and threshold; catalog-only columns are omitted). -/
structure Product where
  id : Nat
  stock_quantity : Int
  low_stock_threshold : Int
deriving DecidableEq, Repr

/-- A row of `sales` (the columns the engine computes; `tax_amount` is not a
column of the table — `processSale` only attaches it to the in-memory object
returned for the receipt). -/
structure SaleRow where
  id : Nat
  sale_number : String
  subtotal : ℚ
  discount_type : Option DiscountType
  discount_value : Option ℚ
  discount_amount : ℚ
  total_amount : ℚ
deriving DecidableEq, Repr

/-- A row of `sale_items`. -/
structure SaleItemRow where
  id : Nat
  sale_id : Nat
  product_id : Nat
  quantity : Int
  unit_price : ℚ
  total_price : ℚ
deriving DecidableEq, Repr

/-- A row of `low_stock_alerts`. -/
structure AlertRow where
  id : Nat
  product_id : Nat
  current_stock : Int
  threshold : Int
  is_acknowledged : Bool
  acknowledged_by : Option Nat
  acknowledged_at : Option Nat
deriving DecidableEq, Repr

/-- A row of `audit_logs` (the columns the counting claims are about; the
`old_values`/`new_values` JSON snapshots and `user_id` are not modelled). -/
structure AuditRow where
  action : String
  table_name : String
  record_id : Nat
deriving DecidableEq, Repr

/-- Errors a SQL statement can raise; raising one aborts the whole statement
(and every trigger effect it queued). -/
inductive PgError where
  /-- `RAISE EXCEPTION 'Insufficient stock for product %: requested %,
  available %'` from `validate_stock_before_sale`. -/
  | insufficientStock (product_id : Nat) (requested available : Int)
  /-- 42P10 from `check_low_stock`'s `ON CONFLICT (product_id)` upsert:
  `low_stock_alerts` has no unique constraint on `product_id`. -/
  | onConflictNoConstraint
  /-- Unique violation on `sales.sale_number`. -/
  | uniqueViolation
  /-- Foreign-key violation (`sale_items.product_id REFERENCES products`). -/
  | fkViolation
deriving DecidableEq, Repr

/-- The database state: the five engine tables, the `sale_number_seq`
sequence (last value issued; `nextval` returns `seq + 1`), and the id supply
standing in for `gen_random_uuid()` (fresh ids are `≥ next_id`). -/
structure DB where
  products : List Product
  sales : List SaleRow
  sale_items : List SaleItemRow
  alerts : List AlertRow
  audit_logs : List AuditRow
  seq : Nat
  next_id : Nat
deriving DecidableEq, Repr

/-- `SELECT ... FROM products WHERE id = pid` (first match). -/
def findProduct (products : List Product) (pid : Nat) : Option Product :=
  products.find? (fun p => p.id = pid)

/-- Append one `audit_logs` row (the body shared by `create_audit_log` and
`audit_trigger_function`: both insert a single row per fired event). -/
def addAudit (db : DB) (action table_name : String) (record_id : Nat) : DB :=
  { db with audit_logs := db.audit_logs ++ [⟨action, table_name, record_id⟩] }

/-- Decimal digit character, as produced by PostgreSQL's `int → text` cast. -/
def digitChar (d : Nat) : Char := Char.ofNat (48 + d)

/-- Worker for `natToDigits`: structural recursion on a fuel bound (any fuel
above the value gives the decimal rendering; the bound keeps the function
kernel-reducible). -/
def natToDigitsFuel : Nat → Nat → List Char
  | 0, _ => []
  | fuel + 1, n =>
    if n < 10 then [digitChar n]
    else natToDigitsFuel fuel (n / 10) ++ [digitChar (n % 10)]

/-- Decimal rendering of a nonnegative integer (PostgreSQL `::text` cast),
most significant digit first. -/
def natToDigits (n : Nat) : List Char := natToDigitsFuel (n + 1) n

/-- PostgreSQL `LPAD(s, len, fill)`: pad on the left up to `len`; if `s` is
already longer than `len` it is truncated on the right. -/
def lpad (s : List Char) (len : Nat) (fill : Char) : List Char :=
  if len ≤ s.length then s.take len
  else List.replicate (len - s.length) fill ++ s

/-- The sale number produced for counter value `n`:
`'BD-' || LPAD(n::text, 6, '0')` (body of the final `set_sale_number()`). -/
def saleNumberFor (n : Nat) : String :=
  ⟨("BD-".data ++ lpad (natToDigits n) 6 '0')⟩

/-- `set_sale_number()` trigger function (final, sequence-based version): if
the incoming `sale_number` is NULL/empty, draw `nextval('sale_number_seq')`
and format it; otherwise leave the row and the sequence alone.  Returns the
(possibly updated) sale number together with the new sequence state. -/
def set_sale_number (sale_number : String) (seq : Nat) : String × Nat :=
  if sale_number = "" then (saleNumberFor (seq + 1), seq + 1)
  else (sale_number, seq)

/-- `check_low_stock()` trigger function (final version, from the quick-sale
trigger migration), fired AFTER INSERT OR UPDATE on `products`.  When the new
stock is at or below the threshold it executes
`INSERT INTO low_stock_alerts ... ON CONFLICT (product_id) DO UPDATE ...`;
since no unique constraint or index on `low_stock_alerts.product_id` exists,
that statement raises 42P10 unconditionally.  Otherwise the function does
nothing (the earlier DELETE-above-threshold branch was dropped when the
function was last replaced). -/
def checkLowStock (db : DB) (new_stock threshold : Int) : Except PgError DB :=
  if new_stock ≤ threshold then .error .onConflictNoConstraint
  else .ok db

/-- `UPDATE products SET stock_quantity = stock_quantity - qty WHERE id = pid`
(the body of `update_product_stock()`), together with the AFTER UPDATE row
triggers of `products`, fired in trigger-name order:
`audit_products_trigger` (one audit row), `check_low_stock_trigger`,
`products_audit_trigger` (one audit row), `trigger_check_low_stock`.
If the UPDATE matches no row, no trigger fires. -/
def updateStockStmt (db : DB) (pid : Nat) (qty : Int) : Except PgError DB :=
  match findProduct db.products pid with
  | none => .ok db
  | some p => do
    let new_stock := p.stock_quantity - qty
    let db₁ : DB := { db with
      products := db.products.map (fun q =>
        if q.id = pid then { q with stock_quantity := new_stock } else q) }
    let db₂ := addAudit db₁ "UPDATE" "products" pid
    let db₃ ← checkLowStock db₂ new_stock p.low_stock_threshold
    let db₄ := addAudit db₃ "UPDATE" "products" pid
    checkLowStock db₄ new_stock p.low_stock_threshold

/-- `calculate_sale_totals()` trigger function, fired AFTER INSERT on
`sale_items` with `NEW` the inserted item: it sums `total_price` over
`sale_items WHERE sale_id = NEW.id` and runs
`UPDATE sales SET subtotal = ..., total_amount = ... WHERE id = NEW.id` —
both filters use the sale **item**'s own id. -/
def calcSaleTotals (db : DB) (item_id : Nat) : DB :=
  let sale_total :=
    ((db.sale_items.filter (fun it => it.sale_id = item_id)).map
      (fun it => it.total_price)).sum
  { db with
    sales := db.sales.map (fun s =>
      if s.id = item_id then
        { s with subtotal := sale_total,
                 total_amount := sale_total - s.discount_amount }
      else s) }

/-- `validate_stock_before_sale()` BEFORE INSERT trigger, run once per row of
the multi-row `sale_items` insert.  Each run reads the stock as it stands
before the statement (the decrements are AFTER triggers, queued until the
statement ends).  A missing product surfaces as the foreign-key violation the
row insert itself would raise. -/
def validateItems (products : List Product) : List SaleItemRow → Except PgError Unit
  | [] => .ok ()
  | item :: rest =>
    match findProduct products item.product_id with
    | none => .error .fkViolation
    | some p =>
      if p.stock_quantity < item.quantity then
        .error (.insufficientStock item.product_id item.quantity p.stock_quantity)
      else validateItems products rest

/-- AFTER INSERT row triggers of one `sale_items` row, in trigger-name order:
`audit_sale_items_trigger` (one audit row), `calculate_sale_totals_trigger`,
`trigger_update_product_stock` and `update_product_stock_trigger` (both
executing `update_product_stock()`). -/
def itemAfterTriggers (db : DB) (item : SaleItemRow) : Except PgError DB := do
  let db₁ := addAudit db "INSERT" "sale_items" item.id
  let db₂ := calcSaleTotals db₁ item.id
  let db₃ ← updateStockStmt db₂ item.product_id item.quantity
  updateStockStmt db₃ item.product_id item.quantity

/-- Run the queued AFTER INSERT events of all inserted `sale_items` rows, in
insertion order. -/
def runItemsAfter : DB → List SaleItemRow → Except PgError DB
  | db, [] => .ok db
  | db, item :: rest => do
    let db' ← itemAfterTriggers db item
    runItemsAfter db' rest

/-- The single `INSERT INTO sale_items ...` statement issued by
`processSale` for the whole cart: per-row BEFORE validation (against the
pre-statement stock), the row inserts, then all queued AFTER row triggers.
Any raised error aborts the statement; the caller keeps the pre-statement
state. -/
def insertSaleItemsStmt (db : DB) (items : List SaleItemRow) : Except PgError DB := do
  validateItems db.products items
  let db₁ : DB := { db with sale_items := db.sale_items ++ items }
  runItemsAfter db₁ items

/-- The `INSERT INTO sales ...` statement issued by `processSale`: both
BEFORE INSERT triggers run `set_sale_number()` (the second sees a non-empty
number and leaves it), the UNIQUE constraint on `sale_number` is checked, the
row is inserted, and the two AFTER INSERT audit triggers
(`audit_sales_trigger`, `sales_audit_trigger`) each append one audit row.
On a unique violation the statement is rolled back, but the `nextval` draw
survives (PostgreSQL sequences are non-transactional).  Returns the state
together with the new sale id or the error. -/
def insertSaleStmt (db : DB) (subtotal : ℚ) (discount_type : Option DiscountType)
    (discount_value : Option ℚ) (discount_amount total_amount : ℚ) :
    DB × Except PgError Nat :=
  let (n₁, seq₁) := set_sale_number "" db.seq
  let (n₂, seq₂) := set_sale_number n₁ seq₁
  if db.sales.any (fun s => s.sale_number = n₂) then
    ({ db with seq := seq₂ }, .error .uniqueViolation)
  else
    let sid := db.next_id
    let sale : SaleRow :=
      ⟨sid, n₂, subtotal, discount_type, discount_value, discount_amount, total_amount⟩
    let db₁ : DB := { db with
      sales := db.sales ++ [sale]
      seq := seq₂
      next_id := db.next_id + 1 }
    let db₂ := addAudit db₁ "INSERT" "sales" sid
    let db₃ := addAudit db₂ "INSERT" "sales" sid
    (db₃, .ok sid)

/-- The `sale_items` rows `processSale` builds from the cart
(`cart.map(item => ({sale_id, product_id, quantity, unit_price,
total_price}))`), with fresh ids drawn from the id supply. -/
def mkItems (sale_id first_id : Nat) : List CartItem → List SaleItemRow
  | [] => []
  | c :: rest =>
    ⟨first_id, sale_id, c.product_id, c.quantity, c.unit_price, c.total_price⟩
      :: mkItems sale_id (first_id + 1) rest

/-- Outcome of one `processSale` call. -/
inductive SaleResult where
  /-- `alert('Cart is empty')`. -/
  | emptyCart
  /-- `alert('Total cannot be negative')`. -/
  | negativeTotal
  /-- `alert('Insufficient payment amount')`. -/
  | insufficientPayment
  /-- The `catch` branch (`alert('Error processing sale...')`). -/
  | failed (e : PgError)
  /-- Success, carrying the id of the persisted sale. -/
  | committed (sale_id : Nat)
deriving DecidableEq, Repr

/-- `processSale` of `Sales.tsx`.  Validation happens client-side, then two
separate statements run: the `sales` insert, then the `sale_items` insert —
they are not wrapped in one transaction, so a failure of the second leaves
the first's effects behind.  (The `cash && amountPaid === 0` branch calls
`setAmountPaid(total)`, a deferred React state update that does not change
the `amountPaid` the rest of the call reads, and the claims under study do
not depend on `change_due`, so that write is not modelled.) -/
def processSale (db : DB) (cart : List CartItem) (discountType : DiscountType)
    (discountValue taxRate : ℚ) (paymentMethod : PaymentMethod)
    (amountPaid : ℚ) : DB × SaleResult :=
  if cart = [] then (db, .emptyCart)
  else
    let total := calculateTotal cart discountType discountValue taxRate
    if total < 0 then (db, .negativeTotal)
    else if paymentMethod = .cash ∧ amountPaid ≠ 0 ∧ amountPaid < total then
      (db, .insufficientPayment)
    else
      let subtotal := calculateSubtotal cart
      let discountAmount := calculateDiscountAmount cart discountType discountValue
      match insertSaleStmt db subtotal
          (if discountValue > 0 then some discountType else none)
          (if discountValue > 0 then some discountValue else none)
          discountAmount total with
      | (db₁, .error e) => (db₁, .failed e)
      | (db₁, .ok sid) =>
        let items := mkItems sid db₁.next_id cart
        let db₂ : DB := { db₁ with next_id := db₁.next_id + cart.length }
        match insertSaleItemsStmt db₂ items with
        | .error e => (db₂, .failed e)
        | .ok db₃ => (db₃, .committed sid)

/-- `acknowledgeAlert` of the `useLowStockAlerts` hook:
`UPDATE low_stock_alerts SET is_acknowledged = true, acknowledged_at = now()
WHERE id = alertId`.  No actor is written and no error is raised for an
already-acknowledged alert. -/
def acknowledgeAlert (db : DB) (alertId : Nat) (now : Nat) : DB :=
  { db with
    alerts := db.alerts.map (fun a =>
      if a.id = alertId then
        { a with is_acknowledged := true, acknowledged_at := some now }
      else a) }

/-- Numeric value of a digit character (inverse of `digitChar`). -/
def digitVal (c : Char) : Nat := c.toNat - 48

/-- Numeric value of a most-significant-first digit string. -/
def digitsVal (l : List Char) : Nat :=
  l.foldl (fun a c => 10 * a + digitVal c) 0

/-- `l` consists of decimal digit characters. -/
def IsDigits (l : List Char) : Prop :=
  ∀ c ∈ l, ∃ d, d < 10 ∧ c = digitChar d

/-- The padded digit block of a sale number: `LPAD(n::text, 6, '0')`. -/
def saleNumberPad (n : Nat) : List Char := lpad (natToDigits n) 6 '0'

/-- A six-digit zero-padded decimal rendering, written positionally — this
definition follows the specification's words (`a six-digit zero-padded
counter value`) and is compared against the source's `LPAD`-based format. -/
def sixDigitZeroPadded (n : Nat) : List Char :=
  [digitChar (n / 100000 % 10), digitChar (n / 10000 % 10),
   digitChar (n / 1000 % 10), digitChar (n / 100 % 10),
   digitChar (n / 10 % 10), digitChar (n % 10)]

/-- All sale ids in the database are below the fresh-id supply (the model's
rendering of `gen_random_uuid()` freshness: ids already drawn never recur). -/
def SalesIdsFresh (db : DB) : Prop := ∀ s ∈ db.sales, s.id < db.next_id

/-- The audit rows one sold item generates on the successful path: its own
INSERT entry, then two product-UPDATE entries per stock decrement, with the
stock decremented twice. -/
def itemAuditBlock (it : SaleItemRow) : List AuditRow :=
  [⟨"INSERT", "sale_items", it.id⟩,
   ⟨"UPDATE", "products", it.product_id⟩, ⟨"UPDATE", "products", it.product_id⟩,
   ⟨"UPDATE", "products", it.product_id⟩, ⟨"UPDATE", "products", it.product_id⟩]

/-- Number of audit rows recorded for one record of one table. -/
def countAudit (logs : List AuditRow) (tbl : String) (rid : Nat) : Nat :=
  (logs.filter (fun a => a.table_name = tbl ∧ a.record_id = rid)).length

/-- Discount computation as the specification words it: a percentage
discount clamps the entered value to the range `[0, 100]` before applying
it.  Stated from the spec and compared against `calculateDiscountAmount`
from the source. -/
def discountAmountClamped (subtotal : ℚ) (discountType : DiscountType)
    (value : ℚ) : ℚ :=
  if discountType = .percentage then subtotal * (min (max value 0) 100) / 100
  else value

/-- Concrete database: one product (id 1) with stock 10 and threshold 0. -/
def dbStock10 : DB :=
  { products := [⟨1, 10, 0⟩], sales := [], sale_items := [], alerts := [],
    audit_logs := [], seq := 0, next_id := 100 }

/-- Concrete database: one product (id 1) with stock 3 and threshold 0. -/
def dbStock3 : DB :=
  { products := [⟨1, 3, 0⟩], sales := [], sale_items := [], alerts := [],
    audit_logs := [], seq := 0, next_id := 100 }

/-- Concrete cart: 2 units of product 1 at price 5. -/
def cartQty2 : List CartItem := [⟨1, 2, 5, 10⟩]

/-- Concrete cart: 5 units of product 1 at price 5. -/
def cartQty5 : List CartItem := [⟨1, 5, 5, 25⟩]

/-- Concrete cart: 1 unit of product 1 at price 100, line total as computed
by the UI handlers. -/
def cartHonest : List CartItem := [⟨1, 1, 100, 100⟩]

/-- The same cart with a tampered client-side line total (50 instead of
100); products and quantities are unchanged. -/
def cartTampered : List CartItem := [⟨1, 1, 100, 50⟩]

/-- Concrete database with one unacknowledged low-stock alert (id 1). -/
def dbAlert : DB :=
  { products := [], sales := [], sale_items := [], alerts := [⟨1, 1, 5, 10, false, none, none⟩],
    audit_logs := [], seq := 0, next_id := 10 }

/-- Concrete database: a product (stock 50, threshold 10) that already has a
live unacknowledged low-stock alert row. -/
def dbRestocked : DB :=
  { products := [⟨1, 50, 10⟩], sales := [], sale_items := [],
    alerts := [⟨7, 1, 9, 10, false, none, none⟩],
    audit_logs := [], seq := 0, next_id := 100 }

/-! ## Decimal-rendering lemmas (for the sale-number claims) -/

theorem natToDigitsFuel_irrel (n : Nat) : ∀ f₁ f₂ : Nat, n < f₁ → n < f₂ →
    natToDigitsFuel f₁ n = natToDigitsFuel f₂ n := by
  induction n using Nat.strong_induction_on with
  | _ n ih =>
    intro f₁ f₂ h₁ h₂
    match f₁, f₂ with
    | g₁ + 1, g₂ + 1 =>
      simp only [natToDigitsFuel]
      by_cases h : n < 10
      · simp [h]
      · have hdiv : n / 10 < n := Nat.div_lt_self (by omega) (by omega)
        simp only [h, if_false]
        have := ih (n / 10) hdiv g₁ g₂ (by omega) (by omega)
        rw [this]

theorem natToDigits_unfold (n : Nat) :
    natToDigits n = if n < 10 then [digitChar n]
      else natToDigits (n / 10) ++ [digitChar (n % 10)] := by
  by_cases h : n < 10
  · show natToDigitsFuel (n + 1) n = _
    simp [natToDigitsFuel, h]
  · have hdiv : n / 10 < n := Nat.div_lt_self (by omega) (by omega)
    show natToDigitsFuel (n + 1) n = _
    have step : natToDigitsFuel (n + 1) n
        = natToDigitsFuel n (n / 10) ++ [digitChar (n % 10)] := by
      simp [natToDigitsFuel, h]
    rw [step, natToDigitsFuel_irrel (n / 10) n (n / 10 + 1) (by omega) (by omega)]
    simp [h, natToDigits]

theorem digitVal_digitChar (d : Nat) (h : d < 10) : digitVal (digitChar d) = d := by
  interval_cases d <;> decide

theorem digitChar_lt_iff (d₁ d₂ : Nat) (h₁ : d₁ < 10) (h₂ : d₂ < 10) :
    digitChar d₁ < digitChar d₂ ↔ d₁ < d₂ := by
  interval_cases d₁ <;> interval_cases d₂ <;> decide

theorem digitsVal_foldl_from (l : List Char) : ∀ a : Nat,
    l.foldl (fun a c => 10 * a + digitVal c) a = a * 10 ^ l.length + digitsVal l := by
  induction l with
  | nil => intro a; simp [digitsVal]
  | cons c t ih =>
    intro a
    have h₁ : digitsVal (c :: t) = digitVal c * 10 ^ t.length + digitsVal t := by
      simp only [digitsVal, List.foldl_cons]
      rw [ih (10 * 0 + digitVal c)]
      ring_nf
      simp [digitsVal]
    simp only [List.foldl_cons]
    rw [ih (10 * a + digitVal c), h₁]
    simp [List.length_cons]
    ring

theorem digitsVal_cons (c : Char) (t : List Char) :
    digitsVal (c :: t) = digitVal c * 10 ^ t.length + digitsVal t := by
  simp only [digitsVal, List.foldl_cons]
  rw [digitsVal_foldl_from t (10 * 0 + digitVal c)]
  ring_nf
  simp [digitsVal]

theorem digitsVal_append_digit (l : List Char) (c : Char) :
    digitsVal (l ++ [c]) = 10 * digitsVal l + digitVal c := by
  simp [digitsVal, List.foldl_append]

theorem digitsVal_lt (l : List Char) (h : IsDigits l) :
    digitsVal l < 10 ^ l.length := by
  induction l with
  | nil => simp [digitsVal]
  | cons c t ih =>
    have hc := h c (by simp)
    obtain ⟨d, hd, rfl⟩ := hc
    have ht : IsDigits t := fun x hx => h x (by simp [hx])
    have hv := ih ht
    rw [digitsVal_cons, digitVal_digitChar d hd]
    have : (d + 1) * 10 ^ t.length ≤ 10 * 10 ^ t.length :=
      Nat.mul_le_mul_right _ (by omega)
    simp only [List.length_cons, pow_succ]
    nlinarith

theorem natToDigits_isDigits (n : Nat) : IsDigits (natToDigits n) := by
  induction n using Nat.strong_induction_on with
  | _ n ih =>
    rw [natToDigits_unfold]
    by_cases h : n < 10
    · simp only [h, if_true]
      intro c hc
      simp at hc
      exact ⟨n, h, hc⟩
    · have hdiv : n / 10 < n := Nat.div_lt_self (by omega) (by omega)
      simp only [h, if_false]
      intro c hc
      rcases List.mem_append.mp hc with h₁ | h₂
      · exact ih (n / 10) hdiv c h₁
      · simp at h₂
        exact ⟨n % 10, Nat.mod_lt _ (by omega), h₂⟩

theorem natToDigits_val (n : Nat) : digitsVal (natToDigits n) = n := by
  induction n using Nat.strong_induction_on with
  | _ n ih =>
    rw [natToDigits_unfold]
    by_cases h : n < 10
    · simp only [h, if_true]
      rw [show [digitChar n] = ([] : List Char) ++ [digitChar n] by simp,
        digitsVal_append_digit]
      simp [digitsVal, digitVal_digitChar n h]
    · have hdiv : n / 10 < n := Nat.div_lt_self (by omega) (by omega)
      simp only [h, if_false]
      rw [digitsVal_append_digit, ih (n / 10) hdiv,
        digitVal_digitChar (n % 10) (Nat.mod_lt _ (by omega))]
      omega

theorem natToDigits_length_le (k : Nat) : ∀ n : Nat, n < 10 ^ k → 1 ≤ k →
    (natToDigits n).length ≤ k := by
  induction k with
  | zero => intro n _ h; omega
  | succ k ih =>
    intro n hn _
    rw [natToDigits_unfold]
    by_cases h : n < 10
    · simp [h]
    · have hdiv : n / 10 < 10 ^ k := by
        rw [Nat.div_lt_iff_lt_mul (by omega)]
        calc n < 10 ^ (k + 1) := hn
        _ = 10 ^ k * 10 := by ring
      have hk : 1 ≤ k := by
        by_contra hk
        have : k = 0 := by omega
        subst this
        simp at hn
        omega
      simp only [h, if_false, List.length_append, List.length_singleton]
      have := ih (n / 10) hdiv hk
      omega

theorem natToDigits_length_pos (n : Nat) : 1 ≤ (natToDigits n).length := by
  rw [natToDigits_unfold]
  by_cases h : n < 10 <;> simp [h]

theorem digits_eq_of_val_eq : ∀ l₁ l₂ : List Char, l₁.length = l₂.length →
    IsDigits l₁ → IsDigits l₂ → digitsVal l₁ = digitsVal l₂ → l₁ = l₂ := by
  intro l₁
  induction l₁ with
  | nil =>
    intro l₂ hlen _ _ _
    exact (List.length_eq_zero.mp hlen.symm).symm
  | cons c₁ t₁ ih =>
    intro l₂ hlen hd₁ hd₂ hval
    match l₂ with
    | c₂ :: t₂ =>
      obtain ⟨d₁, hd₁lt, rfl⟩ := hd₁ c₁ (by simp)
      obtain ⟨d₂, hd₂lt, rfl⟩ := hd₂ c₂ (by simp)
      have htlen : t₁.length = t₂.length := by simpa using hlen
      have ht₁ : IsDigits t₁ := fun x hx => hd₁ x (by simp [hx])
      have ht₂ : IsDigits t₂ := fun x hx => hd₂ x (by simp [hx])
      have hv₁ := digitsVal_lt t₁ ht₁
      have hv₂ := digitsVal_lt t₂ ht₂
      rw [digitsVal_cons, digitsVal_cons, digitVal_digitChar d₁ hd₁lt,
        digitVal_digitChar d₂ hd₂lt, htlen] at hval
      have hB : 0 < 10 ^ t₂.length := Nat.pos_pow_of_pos _ (by omega)
      rw [htlen] at hv₁
      have hd : d₁ = d₂ := by
        rcases Nat.lt_trichotomy d₁ d₂ with h | h | h
        · exfalso
          have : (d₁ + 1) * 10 ^ t₂.length ≤ d₂ * 10 ^ t₂.length :=
            Nat.mul_le_mul_right _ (by omega)
          nlinarith
        · exact h
        · exfalso
          have : (d₂ + 1) * 10 ^ t₂.length ≤ d₁ * 10 ^ t₂.length :=
            Nat.mul_le_mul_right _ (by omega)
          nlinarith
      subst hd
      have hvt : digitsVal t₁ = digitsVal t₂ := by omega
      rw [ih t₂ htlen ht₁ ht₂ hvt]

theorem digits_lt_of_val_lt : ∀ l₁ l₂ : List Char, l₁.length = l₂.length →
    IsDigits l₁ → IsDigits l₂ → digitsVal l₁ < digitsVal l₂ → l₁ < l₂ := by
  intro l₁
  induction l₁ with
  | nil =>
    intro l₂ hlen _ _ hval
    have : l₂ = [] := List.length_eq_zero.mp hlen.symm
    subst this
    simp [digitsVal] at hval
  | cons c₁ t₁ ih =>
    intro l₂ hlen hd₁ hd₂ hval
    match l₂ with
    | c₂ :: t₂ =>
      obtain ⟨d₁, hd₁lt, rfl⟩ := hd₁ c₁ (by simp)
      obtain ⟨d₂, hd₂lt, rfl⟩ := hd₂ c₂ (by simp)
      have htlen : t₁.length = t₂.length := by simpa using hlen
      have ht₁ : IsDigits t₁ := fun x hx => hd₁ x (by simp [hx])
      have ht₂ : IsDigits t₂ := fun x hx => hd₂ x (by simp [hx])
      have hv₁ := digitsVal_lt t₁ ht₁
      have hv₂ := digitsVal_lt t₂ ht₂
      rw [digitsVal_cons, digitsVal_cons, digitVal_digitChar d₁ hd₁lt,
        digitVal_digitChar d₂ hd₂lt, htlen] at hval
      rw [htlen] at hv₁
      rcases Nat.lt_trichotomy d₁ d₂ with h | h | h
      · exact List.Lex.rel ((digitChar_lt_iff d₁ d₂ hd₁lt hd₂lt).mpr h)
      · subst h
        have hvt : digitsVal t₁ < digitsVal t₂ := by omega
        exact List.Lex.cons (ih t₂ htlen ht₁ ht₂ hvt)
      · exfalso
        have : (d₂ + 1) * 10 ^ t₂.length ≤ d₁ * 10 ^ t₂.length :=
          Nat.mul_le_mul_right _ (by omega)
        nlinarith

theorem list_lt_append_left (p : List Char) (l₁ l₂ : List Char)
    (h : l₁ < l₂) : p ++ l₁ < p ++ l₂ := by
  induction p with
  | nil => simpa using h
  | cons a p ih => exact List.Lex.cons ih

theorem lpad_of_short (s : List Char) (h : s.length ≤ 6) :
    lpad s 6 '0' = List.replicate (6 - s.length) '0' ++ s := by
  unfold lpad
  by_cases h₆ : 6 ≤ s.length
  · have hlen : s.length = 6 := by omega
    simp [hlen, List.take_of_length_le (le_of_eq hlen)]
  · simp [h₆]

theorem digitsVal_replicate_zero (k : Nat) (l : List Char) :
    digitsVal (List.replicate k '0' ++ l) = digitsVal l := by
  induction k with
  | zero => simp
  | succ k ih =>
    have : List.replicate (k + 1) '0' ++ l = '0' :: (List.replicate k '0' ++ l) := by
      simp [List.replicate_succ]
    rw [this]
    simp only [digitsVal, List.foldl_cons]
    have h0 : (10 * 0 + digitVal '0') = 0 := by decide
    rw [h0]
    exact ih

theorem isDigits_replicate_zero_append (k : Nat) (l : List Char) (h : IsDigits l) :
    IsDigits (List.replicate k '0' ++ l) := by
  intro c hc
  rcases List.mem_append.mp hc with h₁ | h₂
  · have : c = '0' := List.eq_of_mem_replicate h₁
    exact ⟨0, by omega, by rw [this]; rfl⟩
  · exact h c h₂

theorem saleNumberPad_short (n : Nat) (h : n ≤ 999999) :
    saleNumberPad n
      = List.replicate (6 - (natToDigits n).length) '0' ++ natToDigits n := by
  have hlen : (natToDigits n).length ≤ 6 :=
    natToDigits_length_le 6 n (by omega) (by omega)
  exact lpad_of_short _ hlen

theorem saleNumberPad_length (n : Nat) (h : n ≤ 999999) :
    (saleNumberPad n).length = 6 := by
  have hlen : (natToDigits n).length ≤ 6 :=
    natToDigits_length_le 6 n (by omega) (by omega)
  rw [saleNumberPad_short n h]
  simp [List.length_append, List.length_replicate]
  omega

theorem saleNumberPad_isDigits (n : Nat) (h : n ≤ 999999) :
    IsDigits (saleNumberPad n) := by
  rw [saleNumberPad_short n h]
  exact isDigits_replicate_zero_append _ _ (natToDigits_isDigits n)

theorem saleNumberPad_val (n : Nat) (h : n ≤ 999999) :
    digitsVal (saleNumberPad n) = n := by
  rw [saleNumberPad_short n h, digitsVal_replicate_zero, natToDigits_val]

theorem saleNumberFor_eq_pad (n : Nat) :
    saleNumberFor n = ⟨("BD-".data ++ saleNumberPad n)⟩ := rfl

theorem saleNumberFor_inj (n m : Nat) (hn : n ≤ 999999) (hm : m ≤ 999999)
    (h : saleNumberFor n = saleNumberFor m) : n = m := by
  rw [saleNumberFor_eq_pad, saleNumberFor_eq_pad] at h
  have hdata : ("BD-".data ++ saleNumberPad n) = ("BD-".data ++ saleNumberPad m) := by
    exact congrArg String.data h
  have hpad : saleNumberPad n = saleNumberPad m :=
    List.append_cancel_left hdata
  have := saleNumberPad_val n hn
  rw [hpad, saleNumberPad_val m hm] at this
  omega

theorem saleNumberFor_lt (n m : Nat) (hn : n ≤ 999999) (hm : m ≤ 999999)
    (h : n < m) : saleNumberFor n < saleNumberFor m := by
  rw [saleNumberFor_eq_pad, saleNumberFor_eq_pad, String.lt_iff_toList_lt]
  apply list_lt_append_left
  apply digits_lt_of_val_lt
  · rw [saleNumberPad_length n hn, saleNumberPad_length m hm]
  · exact saleNumberPad_isDigits n hn
  · exact saleNumberPad_isDigits m hm
  · rw [saleNumberPad_val n hn, saleNumberPad_val m hm]
    exact h

theorem sixDigitZeroPadded_val (n : Nat) (h : n ≤ 999999) :
    digitsVal (sixDigitZeroPadded n) = n := by
  simp only [sixDigitZeroPadded, digitsVal, List.foldl_cons, List.foldl_nil]
  rw [digitVal_digitChar _ (Nat.mod_lt _ (by omega)),
    digitVal_digitChar _ (Nat.mod_lt _ (by omega)),
    digitVal_digitChar _ (Nat.mod_lt _ (by omega)),
    digitVal_digitChar _ (Nat.mod_lt _ (by omega)),
    digitVal_digitChar _ (Nat.mod_lt _ (by omega)),
    digitVal_digitChar _ (Nat.mod_lt _ (by omega))]
  omega

theorem sixDigitZeroPadded_isDigits (n : Nat) : IsDigits (sixDigitZeroPadded n) := by
  intro c hc
  simp only [sixDigitZeroPadded, List.mem_cons, List.not_mem_nil, or_false] at hc
  rcases hc with h | h | h | h | h | h <;>
    exact ⟨_, Nat.mod_lt _ (by omega), h⟩

theorem saleNumberPad_eq_sixDigit (n : Nat) (h : n ≤ 999999) :
    saleNumberPad n = sixDigitZeroPadded n := by
  apply digits_eq_of_val_eq
  · rw [saleNumberPad_length n h]; rfl
  · exact saleNumberPad_isDigits n h
  · exact sixDigitZeroPadded_isDigits n
  · rw [saleNumberPad_val n h, sixDigitZeroPadded_val n h]

/-! ## Engine-level lemmas -/

theorem list_map_eq_self {α : Type} (l : List α) (f : α → α)
    (h : ∀ x ∈ l, f x = x) : l.map f = l := by
  induction l with
  | nil => rfl
  | cons a t ih =>
    simp only [List.map_cons]
    rw [h a (by simp), ih (fun x hx => h x (by simp [hx]))]

theorem saleNumberFor_ne_empty (n : Nat) : saleNumberFor n ≠ "" := by
  intro h
  have : ("BD-".data ++ saleNumberPad n) = "".data := congrArg String.data h
  simp [String.data] at this

theorem findProduct_map (products : List Product) (pid : Nat)
    (f : Product → Product) (hf : ∀ q, (f q).id = q.id) :
    findProduct (products.map f) pid = (findProduct products pid).map f := by
  unfold findProduct
  rw [List.find?_map]
  have hcomp : ((fun p => decide (p.id = pid)) ∘ f) = (fun p : Product => decide (p.id = pid)) := by
    funext q
    simp [Function.comp, hf q]
  rw [hcomp]

theorem findProduct_isSome_iff (products : List Product) (pid : Nat) :
    (findProduct products pid).isSome ↔ ∃ p ∈ products, p.id = pid := by
  unfold findProduct
  rw [List.find?_isSome]
  simp

theorem calcSaleTotals_of_fresh (db : DB) (item_id : Nat)
    (h : ∀ s ∈ db.sales, s.id ≠ item_id) : calcSaleTotals db item_id = db := by
  unfold calcSaleTotals
  have : db.sales.map (fun s =>
      if s.id = item_id then
        { s with
          subtotal := ((db.sale_items.filter (fun it => it.sale_id = item_id)).map
            (fun it => it.total_price)).sum,
          total_amount := ((db.sale_items.filter (fun it => it.sale_id = item_id)).map
            (fun it => it.total_price)).sum - s.discount_amount }
      else s) = db.sales := by
    apply list_map_eq_self
    intro s hs
    simp [h s hs]
  simp only [this]

theorem updateStockStmt_ok_found (db : DB) (pid : Nat) (qty : Int) (p : Product)
    (db' : DB) (hp : findProduct db.products pid = some p)
    (h : updateStockStmt db pid qty = .ok db') :
    db' = { db with
      products := db.products.map (fun q =>
        if q.id = pid then { q with stock_quantity := p.stock_quantity - qty } else q),
      audit_logs := db.audit_logs ++ [⟨"UPDATE", "products", pid⟩, ⟨"UPDATE", "products", pid⟩] } ∧
    p.low_stock_threshold < p.stock_quantity - qty := by
  unfold updateStockStmt at h
  rw [hp] at h
  by_cases hle : p.stock_quantity - qty ≤ p.low_stock_threshold
  · simp [checkLowStock, hle, addAudit, Bind.bind, Except.bind] at h
  · simp only [checkLowStock, hle, if_false, addAudit, Bind.bind, Except.bind] at h
    simp only [Except.ok.injEq] at h
    constructor
    · rw [← h]
      simp [List.append_assoc]
    · omega

theorem itemAfterTriggers_ok_spec (db : DB) (it : SaleItemRow) (p : Product)
    (db' : DB) (hp : findProduct db.products it.product_id = some p)
    (hsid : ∀ s ∈ db.sales, s.id ≠ it.id)
    (h : itemAfterTriggers db it = .ok db') :
    db' = { db with
      products := db.products.map (fun q =>
        if q.id = it.product_id then
          { q with stock_quantity := p.stock_quantity - it.quantity - it.quantity }
        else q),
      audit_logs := db.audit_logs ++ itemAuditBlock it } := by
  unfold itemAfterTriggers at h
  simp only [] at h
  set db₁ := addAudit db "INSERT" "sale_items" it.id with hdb₁
  have hcalc : calcSaleTotals db₁ it.id = db₁ :=
    calcSaleTotals_of_fresh db₁ it.id (by
      intro s hs
      exact hsid s hs)
  rw [hcalc] at h
  have hp₁ : findProduct db₁.products it.product_id = some p := hp
  cases h₁ : updateStockStmt db₁ it.product_id it.quantity with
  | error e =>
    rw [h₁] at h
    simp [Bind.bind, Except.bind] at h
  | ok db₂ =>
    rw [h₁] at h
    simp only [Bind.bind, Except.bind] at h
    obtain ⟨hdb₂, _⟩ := updateStockStmt_ok_found db₁ it.product_id it.quantity p db₂ hp₁ h₁
    have hp₂ : findProduct db₂.products it.product_id
        = some { p with stock_quantity := p.stock_quantity - it.quantity } := by
      rw [hdb₂]
      show findProduct (db₁.products.map _) it.product_id = _
      rw [findProduct_map db₁.products it.product_id _
        (fun q => by by_cases hq : q.id = it.product_id <;> simp [hq]), hp₁]
      have hpid : p.id = it.product_id := by
        have := List.find?_some hp₁
        simpa using this
      simp [hpid]
    obtain ⟨hdb', _⟩ := updateStockStmt_ok_found db₂ it.product_id it.quantity _ db' hp₂ h
    rw [hdb', hdb₂]
    simp only [List.map_map, List.append_assoc]
    congr 1
    · apply List.map_congr_left
      intro q _
      by_cases hq : q.id = it.product_id <;> simp [Function.comp, hq]
    · simp [hdb₁, addAudit, itemAuditBlock, List.append_assoc]

theorem validateItems_ok_present (products : List Product) :
    ∀ items : List SaleItemRow, validateItems products items = .ok () →
      ∀ it ∈ items, (findProduct products it.product_id).isSome := by
  intro items
  induction items with
  | nil => intro _ it hit; simp at hit
  | cons a rest ih =>
    intro h it hit
    unfold validateItems at h
    cases hfind : findProduct products a.product_id with
    | none => rw [hfind] at h; simp at h
    | some p =>
      rw [hfind] at h
      by_cases hq : p.stock_quantity < a.quantity
      · simp [hq] at h
      · simp only [hq, if_false] at h
        rcases List.mem_cons.mp hit with rfl | hmem
        · simp [hfind]
        · exact ih h it hmem

theorem runItemsAfter_ok_spec :
    ∀ (items : List SaleItemRow) (db db' : DB),
      runItemsAfter db items = .ok db' →
      (∀ it ∈ items, (findProduct db.products it.product_id).isSome) →
      (∀ it ∈ items, ∀ s ∈ db.sales, s.id ≠ it.id) →
      db'.sales = db.sales ∧ db'.sale_items = db.sale_items ∧
      db'.alerts = db.alerts ∧ db'.seq = db.seq ∧ db'.next_id = db.next_id ∧
      db'.products.map Product.id = db.products.map Product.id ∧
      db'.audit_logs = db.audit_logs ++ (items.map itemAuditBlock).flatten := by
  intro items
  induction items with
  | nil =>
    intro db db' h _ _
    unfold runItemsAfter at h
    simp only [Except.ok.injEq] at h
    subst h
    simp
  | cons it rest ih =>
    intro db db' h hpresent hsid
    unfold runItemsAfter at h
    cases h₁ : itemAfterTriggers db it with
    | error e => rw [h₁] at h; simp [Bind.bind, Except.bind] at h
    | ok dbm =>
      rw [h₁] at h
      simp only [Bind.bind, Except.bind] at h
      have hits : (findProduct db.products it.product_id).isSome :=
        hpresent it (by simp)
      obtain ⟨p, hp⟩ := Option.isSome_iff_exists.mp hits
      have hdbm := itemAfterTriggers_ok_spec db it p dbm hp
        (fun s hs => hsid it (by simp) s hs) h₁
      have hmapid : dbm.products.map Product.id = db.products.map Product.id := by
        rw [hdbm]
        simp only [List.map_map]
        apply List.map_congr_left
        intro q _
        by_cases hq : q.id = it.product_id <;> simp [Function.comp, hq]
      have hpres' : ∀ x ∈ rest, (findProduct dbm.products x.product_id).isSome := by
        intro x hx
        have := hpresent x (by simp [hx])
        rw [findProduct_isSome_iff] at this ⊢
        obtain ⟨q, hq, hqid⟩ := this
        have : x.product_id ∈ db.products.map Product.id := by
          rw [← hqid]
          exact List.mem_map_of_mem Product.id hq
        rw [← hmapid] at this
        obtain ⟨q', hq', hq'id⟩ := List.mem_map.mp this
        exact ⟨q', hq', hq'id⟩
      have hsid' : ∀ x ∈ rest, ∀ s ∈ dbm.sales, s.id ≠ x.id := by
        intro x hx s hs
        have hsales : dbm.sales = db.sales := by rw [hdbm]
        rw [hsales] at hs
        exact hsid x (by simp [hx]) s hs
      obtain ⟨h₂, h₃, h₄, h₅, h₆, h₇, h₈⟩ := ih dbm db' h hpres' hsid'
      have hfields : dbm.sales = db.sales ∧ dbm.sale_items = db.sale_items ∧
          dbm.alerts = db.alerts ∧ dbm.seq = db.seq ∧ dbm.next_id = db.next_id ∧
          dbm.audit_logs = db.audit_logs ++ itemAuditBlock it := by
        rw [hdbm]
        simp
      obtain ⟨f₁, f₂, f₃, f₄, f₅, f₆⟩ := hfields
      refine ⟨by rw [h₂, f₁], by rw [h₃, f₂], by rw [h₄, f₃],
        by rw [h₅, f₄], by rw [h₆, f₅], by rw [h₇, hmapid], ?_⟩
      rw [h₈, f₆]
      simp [List.append_assoc]

theorem insertSaleItemsStmt_ok_spec (db : DB) (items : List SaleItemRow) (db' : DB)
    (h : insertSaleItemsStmt db items = .ok db')
    (hsid : ∀ it ∈ items, ∀ s ∈ db.sales, s.id ≠ it.id) :
    db'.sales = db.sales ∧ db'.sale_items = db.sale_items ++ items ∧
    db'.alerts = db.alerts ∧ db'.seq = db.seq ∧ db'.next_id = db.next_id ∧
    db'.products.map Product.id = db.products.map Product.id ∧
    db'.audit_logs = db.audit_logs ++ (items.map itemAuditBlock).flatten := by
  unfold insertSaleItemsStmt at h
  cases hv : validateItems db.products items with
  | error e => rw [hv] at h; simp [Bind.bind, Except.bind] at h
  | ok u =>
    cases u
    rw [hv] at h
    simp only [Bind.bind, Except.bind] at h
    have hpres : ∀ it ∈ items, (findProduct db.products it.product_id).isSome :=
      validateItems_ok_present db.products items hv
    obtain ⟨h₁, h₂, h₃, h₄, h₅, h₆, h₇⟩ :=
      runItemsAfter_ok_spec items { db with sale_items := db.sale_items ++ items }
        db' h hpres hsid
    exact ⟨h₁, h₂, h₃, h₄, h₅, h₆, h₇⟩

theorem insertSaleStmt_eq (db : DB) (st : ℚ) (dt : Option DiscountType)
    (dv : Option ℚ) (da ta : ℚ) :
    insertSaleStmt db st dt dv da ta =
      if db.sales.any (fun s => s.sale_number = saleNumberFor (db.seq + 1)) then
        ({ db with seq := db.seq + 1 }, .error .uniqueViolation)
      else
        ({ db with
            sales := db.sales ++
              [⟨db.next_id, saleNumberFor (db.seq + 1), st, dt, dv, da, ta⟩],
            audit_logs := db.audit_logs ++
              [⟨"INSERT", "sales", db.next_id⟩, ⟨"INSERT", "sales", db.next_id⟩],
            seq := db.seq + 1,
            next_id := db.next_id + 1 }, .ok db.next_id) := by
  unfold insertSaleStmt set_sale_number
  have hne := saleNumberFor_ne_empty (db.seq + 1)
  by_cases hprop : ∃ x ∈ db.sales, x.sale_number = saleNumberFor (db.seq + 1)
  · simp [hne, hprop, addAudit, List.any_eq_true]
  · simp [hne, hprop, addAudit, List.any_eq_true, List.append_assoc]

theorem mkItems_id_ge (cart : List CartItem) : ∀ sid first : Nat,
    ∀ it ∈ mkItems sid first cart, first ≤ it.id := by
  induction cart with
  | nil => intro sid first it hit; simp [mkItems] at hit
  | cons c rest ih =>
    intro sid first it hit
    unfold mkItems at hit
    rcases List.mem_cons.mp hit with rfl | hmem
    · simp
    · have := ih sid (first + 1) it hmem
      omega

theorem processSale_committed_spec (db : DB) (cart : List CartItem)
    (dt : DiscountType) (dv r : ℚ) (pm : PaymentMethod) (ap : ℚ)
    (db' : DB) (sid : Nat) (hWF : SalesIdsFresh db)
    (h : processSale db cart dt dv r pm ap = (db', .committed sid)) :
    sid = db.next_id ∧
    0 ≤ calculateTotal cart dt dv r ∧
    db'.sales = db.sales ++
      [⟨db.next_id, saleNumberFor (db.seq + 1), calculateSubtotal cart,
        (if dv > 0 then some dt else none), (if dv > 0 then some dv else none),
        calculateDiscountAmount cart dt dv, calculateTotal cart dt dv r⟩] ∧
    db'.alerts = db.alerts ∧ db'.seq = db.seq + 1 ∧
    db'.sale_items = db.sale_items ++ mkItems db.next_id (db.next_id + 1) cart ∧
    db'.audit_logs = db.audit_logs ++
      [⟨"INSERT", "sales", db.next_id⟩, ⟨"INSERT", "sales", db.next_id⟩]
      ++ ((mkItems db.next_id (db.next_id + 1) cart).map itemAuditBlock).flatten := by
  unfold processSale at h
  by_cases hc : cart = []
  · simp [hc] at h
  simp only [hc, if_false] at h
  by_cases hneg : calculateTotal cart dt dv r < 0
  · simp [hneg] at h
  simp only [hneg, if_false] at h
  by_cases hpay : pm = PaymentMethod.cash ∧ ap ≠ 0 ∧
      ap < calculateTotal cart dt dv r
  · simp [hpay] at h
  simp only [hpay, if_false] at h
  rw [insertSaleStmt_eq] at h
  by_cases hany : db.sales.any (fun s => s.sale_number = saleNumberFor (db.seq + 1))
  · simp [hany] at h
  simp only [hany, Bool.false_eq_true, if_false] at h
  cases hins : insertSaleItemsStmt
      { products := db.products, sales := db.sales ++
          [⟨db.next_id, saleNumberFor (db.seq + 1), calculateSubtotal cart,
            (if dv > 0 then some dt else none), (if dv > 0 then some dv else none),
            calculateDiscountAmount cart dt dv, calculateTotal cart dt dv r⟩],
        sale_items := db.sale_items, alerts := db.alerts,
        audit_logs := db.audit_logs ++
          [⟨"INSERT", "sales", db.next_id⟩, ⟨"INSERT", "sales", db.next_id⟩],
        seq := db.seq + 1, next_id := db.next_id + 1 + cart.length }
      (mkItems db.next_id (db.next_id + 1) cart) with
  | error e =>
    rw [hins] at h
    simp at h
  | ok db₃ =>
    rw [hins] at h
    simp only [Prod.mk.injEq, SaleResult.committed.injEq] at h
    obtain ⟨hdb', hsid⟩ := h
    subst hdb'
    have hsid2 : ∀ it ∈ mkItems db.next_id (db.next_id + 1) cart,
        ∀ s ∈ db.sales ++
          [(⟨db.next_id, saleNumberFor (db.seq + 1), calculateSubtotal cart,
            (if dv > 0 then some dt else none), (if dv > 0 then some dv else none),
            calculateDiscountAmount cart dt dv, calculateTotal cart dt dv r⟩ : SaleRow)],
          s.id ≠ it.id := by
      intro it hit s hs
      have hge : db.next_id + 1 ≤ it.id :=
        mkItems_id_ge cart db.next_id (db.next_id + 1) it hit
      rcases List.mem_append.mp hs with holdmem | hnewmem
      · have := hWF s holdmem
        omega
      · have hsidval : s.id = db.next_id := by
          simp at hnewmem
          rw [hnewmem]
        omega
    obtain ⟨g₁, g₂, g₃, g₄, g₅, g₆, g₇⟩ :=
      insertSaleItemsStmt_ok_spec _ _ db₃ hins hsid2
    refine ⟨hsid.symm, le_of_not_lt hneg, ?_, ?_, ?_, ?_, ?_⟩
    · rw [g₁]
    · rw [g₃]
    · rw [g₄]
    · rw [g₂]
    · rw [g₇]

/-- C2, amended: a `processSale` call that does not commit leaves products,
sale items and alerts untouched; a client-side validation rejection (empty
cart, negative total, insufficient cash) leaves the state exactly as it was;
but a failure raised during the `sale_items` statement leaves behind the
already-inserted orphan Sale row and its two audit entries — the two inserts
are separate statements, not one transaction, so the claim's "no visible
side effects" does not hold for those failures. -/
theorem C2_amended (db : DB) (cart : List CartItem)
    (dt : DiscountType) (dv r : ℚ) (pm : PaymentMethod) (ap : ℚ)
    (db' : DB) (res : SaleResult)
    (h : processSale db cart dt dv r pm ap = (db', res))
    (hres : ∀ s, res ≠ .committed s) :
    db'.products = db.products ∧ db'.sale_items = db.sale_items ∧
    db'.alerts = db.alerts ∧
    ((res = .emptyCart ∨ res = .negativeTotal ∨ res = .insufficientPayment) →
      db' = db) ∧
    (∀ e, res = .failed e → e ≠ PgError.uniqueViolation →
      db'.sales = db.sales ++
        [⟨db.next_id, saleNumberFor (db.seq + 1), calculateSubtotal cart,
          (if dv > 0 then some dt else none), (if dv > 0 then some dv else none),
          calculateDiscountAmount cart dt dv, calculateTotal cart dt dv r⟩] ∧
      db'.audit_logs = db.audit_logs ++
        [⟨"INSERT", "sales", db.next_id⟩, ⟨"INSERT", "sales", db.next_id⟩]) := by
  unfold processSale at h
  by_cases hc : cart = []
  · rw [if_pos hc] at h
    rw [Prod.mk.injEq] at h
    obtain ⟨rfl, rfl⟩ := h
    refine ⟨rfl, rfl, rfl, fun _ => rfl, ?_⟩
    intro e he
    simp at he
  simp only [hc, if_false] at h
  by_cases hneg : calculateTotal cart dt dv r < 0
  · rw [if_pos hneg] at h
    rw [Prod.mk.injEq] at h
    obtain ⟨rfl, rfl⟩ := h
    refine ⟨rfl, rfl, rfl, fun _ => rfl, ?_⟩
    intro e he
    simp at he
  simp only [hneg, if_false] at h
  by_cases hpay : pm = PaymentMethod.cash ∧ ap ≠ 0 ∧
      ap < calculateTotal cart dt dv r
  · rw [if_pos hpay] at h
    rw [Prod.mk.injEq] at h
    obtain ⟨rfl, rfl⟩ := h
    refine ⟨rfl, rfl, rfl, fun _ => rfl, ?_⟩
    intro e he
    simp at he
  simp only [hpay, if_false] at h
  rw [insertSaleStmt_eq] at h
  by_cases hany : db.sales.any
      (fun s => s.sale_number = saleNumberFor (db.seq + 1))
  · rw [if_pos hany] at h
    rw [Prod.mk.injEq] at h
    obtain ⟨rfl, rfl⟩ := h
    refine ⟨rfl, rfl, rfl, ?_, ?_⟩
    · intro hval
      rcases hval with hv | hv | hv <;> simp at hv
    · intro e he hne
      simp only [SaleResult.failed.injEq] at he
      exact absurd he.symm hne
  simp only [hany, Bool.false_eq_true, if_false] at h
  cases hins : insertSaleItemsStmt
      { products := db.products, sales := db.sales ++
          [⟨db.next_id, saleNumberFor (db.seq + 1), calculateSubtotal cart,
            (if dv > 0 then some dt else none),
            (if dv > 0 then some dv else none),
            calculateDiscountAmount cart dt dv,
            calculateTotal cart dt dv r⟩],
        sale_items := db.sale_items, alerts := db.alerts,
        audit_logs := db.audit_logs ++
          [⟨"INSERT", "sales", db.next_id⟩, ⟨"INSERT", "sales", db.next_id⟩],
        seq := db.seq + 1, next_id := db.next_id + 1 + cart.length }
      (mkItems db.next_id (db.next_id + 1) cart) with
  | error e =>
    rw [hins] at h
    rw [Prod.mk.injEq] at h
    obtain ⟨rfl, rfl⟩ := h
    refine ⟨rfl, rfl, rfl, ?_, ?_⟩
    · intro hval
      rcases hval with hv | hv | hv <;> simp at hv
    · intro e₂ he hne
      exact ⟨rfl, rfl⟩
  | ok db₃ =>
    rw [hins] at h
    rw [Prod.mk.injEq] at h
    obtain ⟨rfl, rfl⟩ := h
    exact absurd rfl (hres db.next_id)

/-! ## Claim theorems -/

/-- C1, counterexample: the claim asserts `total_amount ≥ 0` for every cart,
but a cart of one line at price 10 with a flat discount of 20 computes a
negative total (`-10.75` at tax rate 7.5%): the calculator never clamps the
discount. -/
theorem C1_counterexample :
    calculateTotal [⟨1, 1, 10, 10⟩] .flat 20 (75 / 1000) < 0 := by
  simp [calculateTotal, calculateSubtotal, calculateDiscountAmount,
    calculateTaxAmount]
  norm_num

/-- C1, amended: for every cart the calculator satisfies
`total = subtotal - discount + tax` with `tax = (subtotal - discount) * rate`,
and every sale persisted by a committed `processSale` run carries that total,
which is nonnegative because `processSale` rejects carts whose computed total
is negative; a cart's total itself may be negative. -/
theorem C1_amended (db : DB) (cart : List CartItem) (dt : DiscountType)
    (dv r ap : ℚ) (pm : PaymentMethod) (db' : DB) (sid : Nat)
    (hWF : SalesIdsFresh db)
    (h : processSale db cart dt dv r pm ap = (db', .committed sid)) :
    calculateTotal cart dt dv r
      = calculateSubtotal cart - calculateDiscountAmount cart dt dv
        + calculateTaxAmount cart dt dv r ∧
    calculateTaxAmount cart dt dv r
      = (calculateSubtotal cart - calculateDiscountAmount cart dt dv) * r ∧
    ∃ s ∈ db'.sales, s.id = sid ∧
      s.total_amount = calculateTotal cart dt dv r ∧ 0 ≤ s.total_amount := by
  obtain ⟨hsid, hpos, hsales, _, _, _, _⟩ :=
    processSale_committed_spec db cart dt dv r pm ap db' sid hWF h
  refine ⟨rfl, rfl, ?_⟩
  refine ⟨⟨db.next_id, saleNumberFor (db.seq + 1), calculateSubtotal cart,
    (if dv > 0 then some dt else none), (if dv > 0 then some dv else none),
    calculateDiscountAmount cart dt dv, calculateTotal cart dt dv r⟩, ?_, ?_, rfl, hpos⟩
  · rw [hsales]
    simp
  · exact hsid.symm

/-- C1, witness: the amended claim applied to a concrete committed sale. -/
theorem C1_witness :
    ∃ s ∈ (processSale dbStock10 cartQty2 .flat 0 (75 / 1000) .cash 20).1.sales,
      s.id = 100 ∧ s.total_amount = calculateTotal cartQty2 .flat 0 (75 / 1000) ∧
      0 ≤ s.total_amount := by
  have hsnd : (processSale dbStock10 cartQty2 .flat 0 (75 / 1000) .cash 20).2
      = .committed 100 := by
    norm_num [processSale, insertSaleStmt_eq, dbStock10, cartQty2, calculateTotal,
      calculateSubtotal, calculateDiscountAmount, calculateTaxAmount, mkItems,
      insertSaleItemsStmt, validateItems, findProduct, List.find?,
      Bind.bind, Except.bind, runItemsAfter, itemAfterTriggers, calcSaleTotals,
      updateStockStmt, checkLowStock, addAudit]
  have h : processSale dbStock10 cartQty2 .flat 0 (75 / 1000) .cash 20
      = ((processSale dbStock10 cartQty2 .flat 0 (75 / 1000) .cash 20).1,
        .committed 100) := by
    conv_rhs => rw [← hsnd]
  exact (C1_amended dbStock10 cartQty2 .flat 0 (75 / 1000) 20 .cash _ 100
    (by intro s hs; simp [dbStock10] at hs) h).2.2

/-- C2, counterexample: with stock 3 and a cart asking for quantity 5 the
commit fails with the insufficient-stock error, yet the state is not
restored: one Sale row and two audit entries survive (stock and sale items
are untouched). -/
theorem C2_counterexample :
    (processSale dbStock3 cartQty5 .flat 0 (75 / 1000) .cash 100).2
      = .failed (.insufficientStock 1 5 3) ∧
    (processSale dbStock3 cartQty5 .flat 0 (75 / 1000) .cash 100).1.sales.length = 1 ∧
    dbStock3.sales.length = 0 ∧
    (processSale dbStock3 cartQty5 .flat 0 (75 / 1000) .cash 100).1.audit_logs.length = 2 ∧
    dbStock3.audit_logs.length = 0 := by
  norm_num [processSale, insertSaleStmt_eq, dbStock3, cartQty5, calculateTotal,
    calculateSubtotal, calculateDiscountAmount, calculateTaxAmount, mkItems,
    insertSaleItemsStmt, validateItems, findProduct, List.find?,
    Bind.bind, Except.bind]

/-- C2, witness: the amended claim applied to the stock-3/quantity-5
rejection. -/
theorem C2_witness :
    (processSale dbStock3 cartQty5 .flat 0 (75 / 1000) .cash 100).1.products
      = dbStock3.products ∧
    (processSale dbStock3 cartQty5 .flat 0 (75 / 1000) .cash 100).1.sale_items
      = dbStock3.sale_items ∧
    (processSale dbStock3 cartQty5 .flat 0 (75 / 1000) .cash 100).1.alerts
      = dbStock3.alerts ∧
    (processSale dbStock3 cartQty5 .flat 0 (75 / 1000) .cash 100).1.sales
      = dbStock3.sales ++
        [⟨dbStock3.next_id, saleNumberFor (dbStock3.seq + 1),
          calculateSubtotal cartQty5, none, none,
          calculateDiscountAmount cartQty5 .flat 0,
          calculateTotal cartQty5 .flat 0 (75 / 1000)⟩] := by
  have hsnd : (processSale dbStock3 cartQty5 .flat 0 (75 / 1000) .cash 100).2
      = .failed (.insufficientStock 1 5 3) := by
    norm_num [processSale, insertSaleStmt_eq, dbStock3, cartQty5, calculateTotal,
      calculateSubtotal, calculateDiscountAmount, calculateTaxAmount, mkItems,
      insertSaleItemsStmt, validateItems, findProduct, List.find?,
      Bind.bind, Except.bind]
  have h : processSale dbStock3 cartQty5 .flat 0 (75 / 1000) .cash 100
      = ((processSale dbStock3 cartQty5 .flat 0 (75 / 1000) .cash 100).1,
        .failed (.insufficientStock 1 5 3)) := by
    conv_rhs => rw [← hsnd]
  obtain ⟨g₁, g₂, g₃, _, g₅⟩ :=
    C2_amended dbStock3 cartQty5 .flat 0 (75 / 1000) .cash 100 _ _ h
      (fun s hcomm => SaleResult.noConfusion hcomm)
  obtain ⟨hsales, _⟩ := g₅ (.insufficientStock 1 5 3) rfl
    (fun habs => PgError.noConfusion habs)
  refine ⟨g₁, g₂, g₃, ?_⟩
  rw [hsales]
  norm_num

/-- C3: the claim says a successful commit decrements each sold product's
stock by exactly the quantity sold; in the code two AFTER INSERT triggers on
`sale_items` (`trigger_update_product_stock` and
`update_product_stock_trigger`) both execute `update_product_stock()`, so
selling 2 units from stock 10 leaves 6, not 8. -/
theorem C3_code_eval :
    (processSale dbStock10 cartQty2 .flat 0 (75 / 1000) .cash 20).2
      = .committed 100 ∧
    (processSale dbStock10 cartQty2 .flat 0 (75 / 1000) .cash 20).1.products.map
      Product.stock_quantity = [6] ∧
    (6 : Int) = 10 - 2 * 2 ∧ (6 : Int) ≠ 10 - 2 := by
  norm_num [processSale, insertSaleStmt_eq, dbStock10, cartQty2, calculateTotal,
    calculateSubtotal, calculateDiscountAmount, calculateTaxAmount, mkItems,
    insertSaleItemsStmt, validateItems, findProduct, List.find?,
    Bind.bind, Except.bind, runItemsAfter, itemAfterTriggers, calcSaleTotals,
    updateStockStmt, checkLowStock, addAudit]

/-- C4: inserting a sale item fails with the insufficient-stock error exactly
when the quantity exceeds the current stock and leaves the stock unchanged on
failure (both as claimed), but on success the stock drops by twice the
requested quantity — the decrement trigger is registered twice. -/
theorem C4_code_eval :
    insertSaleItemsStmt dbStock10 [⟨101, 100, 1, 2, 5, 10⟩]
      = .ok { dbStock10 with
          products := [⟨1, 6, 0⟩],
          sale_items := [⟨101, 100, 1, 2, 5, 10⟩],
          audit_logs := [⟨"INSERT", "sale_items", 101⟩,
            ⟨"UPDATE", "products", 1⟩, ⟨"UPDATE", "products", 1⟩,
            ⟨"UPDATE", "products", 1⟩, ⟨"UPDATE", "products", 1⟩] } ∧
    (6 : Int) = 10 - 2 * 2 ∧ (6 : Int) ≠ 10 - 2 ∧
    insertSaleItemsStmt dbStock3 [⟨101, 100, 1, 5, 5, 25⟩]
      = .error (.insufficientStock 1 5 3) ∧
    ¬ ((3 : Int) < 2) ∧ (3 : Int) < 5 := by
  refine ⟨?_, by norm_num, by norm_num, ?_, by norm_num, by norm_num⟩
  · simp [insertSaleItemsStmt, validateItems, findProduct, dbStock10, List.find?,
      Bind.bind, Except.bind, runItemsAfter, itemAfterTriggers, calcSaleTotals,
      updateStockStmt, checkLowStock, addAudit]
  · simp [insertSaleItemsStmt, validateItems, findProduct, dbStock3, List.find?,
      Bind.bind, Except.bind]

/-- C5, counterexample: `LPAD(n::text, 6, '0')` truncates on the right once
the counter exceeds 999999, so counters 100000 and 1000000 produce the same
sale number `BD-100000`: generated numbers are neither unique nor a faithful
six-digit rendering beyond 999999. -/
theorem C5_counterexample :
    saleNumberFor 100000 = saleNumberFor 1000000 ∧ (100000 : Nat) ≠ 1000000 :=
  ⟨by decide, by decide⟩

/-- C5, amended: while the counter stays at or below 999999, every generated
sale number is `BD-` followed by the six-digit zero-padded counter value, the
numbers are injective in the counter and strictly increasing with it (in
string order), and each successful `sales` insert draws the next counter
value and stores its formatted number on the persisted row. -/
theorem C5_amended (n m : Nat) (hn : n ≤ 999999) (hm : m ≤ 999999) :
    saleNumberFor n = ⟨("BD-".data ++ sixDigitZeroPadded n)⟩ ∧
    (saleNumberFor n = saleNumberFor m → n = m) ∧
    (n < m → saleNumberFor n < saleNumberFor m) ∧
    (∀ (db : DB) (st da ta : ℚ) (dt : Option DiscountType) (dvv : Option ℚ)
        (db₁ : DB) (sid : Nat),
      insertSaleStmt db st dt dvv da ta = (db₁, .ok sid) →
      db₁.seq = db.seq + 1 ∧
      ∃ s ∈ db₁.sales, s.id = sid ∧ s.sale_number = saleNumberFor (db.seq + 1)) := by
  refine ⟨?_, saleNumberFor_inj n m hn hm, saleNumberFor_lt n m hn hm, ?_⟩
  · rw [saleNumberFor_eq_pad, saleNumberPad_eq_sixDigit n hn]
  · intro db st da ta dt dvv db₁ sid h
    rw [insertSaleStmt_eq] at h
    by_cases hany : db.sales.any (fun s => s.sale_number = saleNumberFor (db.seq + 1))
    · rw [if_pos hany] at h
      rw [Prod.mk.injEq] at h
      exact absurd h.2 (by simp)
    · rw [if_neg hany] at h
      rw [Prod.mk.injEq] at h
      obtain ⟨hdb, hsid⟩ := h
      rw [← hdb]
      simp only [Except.ok.injEq] at hsid
      refine ⟨rfl, ?_⟩
      refine ⟨⟨db.next_id, saleNumberFor (db.seq + 1), st, dt, dvv, da, ta⟩, by simp, ?_, rfl⟩
      rw [← hsid]

/-- C5, witness: the amended claim at counters 3 and 7. -/
theorem C5_witness :
    saleNumberFor 3 = ⟨("BD-".data ++ sixDigitZeroPadded 3)⟩ ∧
    saleNumberFor 3 < saleNumberFor 7 :=
  ⟨(C5_amended 3 7 (by norm_num) (by norm_num)).1,
    (C5_amended 3 7 (by norm_num) (by norm_num)).2.2.1 (by norm_num)⟩

/-- C6, counterexample: two commits over the same catalog state, identical in
products and quantities and differing only in the client-supplied line
totals, persist different `subtotal`/`total_amount` values — the server
stores whatever the client computed (the recompute trigger matches no rows). -/
theorem C6_counterexample :
    (processSale dbStock10 cartHonest .flat 0 0 .cash 200).2 = .committed 100 ∧
    (processSale dbStock10 cartTampered .flat 0 0 .cash 200).2 = .committed 100 ∧
    (processSale dbStock10 cartHonest .flat 0 0 .cash 200).1.sales.map
      SaleRow.subtotal = [100] ∧
    (processSale dbStock10 cartTampered .flat 0 0 .cash 200).1.sales.map
      SaleRow.subtotal = [50] ∧
    cartHonest.map (fun c => (c.product_id, c.quantity))
      = cartTampered.map (fun c => (c.product_id, c.quantity)) ∧
    ((100 : ℚ) ≠ 50) := by
  norm_num [processSale, insertSaleStmt_eq, dbStock10, cartHonest, cartTampered,
    calculateTotal, calculateSubtotal, calculateDiscountAmount, calculateTaxAmount,
    mkItems, insertSaleItemsStmt, validateItems, findProduct, List.find?,
    Bind.bind, Except.bind, runItemsAfter, itemAfterTriggers, calcSaleTotals,
    updateStockStmt, checkLowStock, addAudit]

/-- C6, amended: the totals persisted on a committed sale are exactly the
client-computed values (`calculateSubtotal`/`calculateDiscountAmount`/
`calculateTotal` over the client cart); the server-side recompute trigger
`calculate_sale_totals` filters `sales` by the sale item's own id and
therefore updates no row when ids are fresh. -/
theorem C6_amended (db : DB) (cart : List CartItem) (dt : DiscountType)
    (dv r ap : ℚ) (pm : PaymentMethod) (db' : DB) (sid : Nat)
    (hWF : SalesIdsFresh db)
    (h : processSale db cart dt dv r pm ap = (db', .committed sid)) :
    (∀ (db₀ : DB) (iid : Nat), (∀ s ∈ db₀.sales, s.id ≠ iid) →
      calcSaleTotals db₀ iid = db₀) ∧
    ∃ s ∈ db'.sales, s.id = sid ∧
      s.subtotal = calculateSubtotal cart ∧
      s.discount_amount = calculateDiscountAmount cart dt dv ∧
      s.total_amount = calculateTotal cart dt dv r := by
  obtain ⟨hsid, _, hsales, _, _, _, _⟩ :=
    processSale_committed_spec db cart dt dv r pm ap db' sid hWF h
  refine ⟨fun db₀ iid h₀ => calcSaleTotals_of_fresh db₀ iid h₀, ?_⟩
  refine ⟨⟨db.next_id, saleNumberFor (db.seq + 1), calculateSubtotal cart,
    (if dv > 0 then some dt else none), (if dv > 0 then some dv else none),
    calculateDiscountAmount cart dt dv, calculateTotal cart dt dv r⟩, ?_,
    hsid.symm, rfl, rfl, rfl⟩
  rw [hsales]
  simp

/-- C6, witness: the amended claim applied to a concrete committed sale. -/
theorem C6_witness :
    ∃ s ∈ (processSale dbStock10 cartHonest .flat 0 0 .cash 200).1.sales,
      s.id = 100 ∧ s.subtotal = calculateSubtotal cartHonest ∧
      s.discount_amount = calculateDiscountAmount cartHonest .flat 0 ∧
      s.total_amount = calculateTotal cartHonest .flat 0 0 := by
  have hsnd : (processSale dbStock10 cartHonest .flat 0 0 .cash 200).2
      = .committed 100 := by
    norm_num [processSale, insertSaleStmt_eq, dbStock10, cartHonest,
      calculateTotal, calculateSubtotal, calculateDiscountAmount,
      calculateTaxAmount, mkItems, insertSaleItemsStmt, validateItems,
      findProduct, List.find?, Bind.bind, Except.bind, runItemsAfter,
      itemAfterTriggers, calcSaleTotals, updateStockStmt, checkLowStock, addAudit]
  have h : processSale dbStock10 cartHonest .flat 0 0 .cash 200
      = ((processSale dbStock10 cartHonest .flat 0 0 .cash 200).1,
        .committed 100) := by
    conv_rhs => rw [← hsnd]
  exact (C6_amended dbStock10 cartHonest .flat 0 0 200 .cash _ 100
    (by intro s hs; simp [dbStock10] at hs) h).2

theorem countAudit_append (l₁ l₂ : List AuditRow) (tbl : String) (rid : Nat) :
    countAudit (l₁ ++ l₂) tbl rid = countAudit l₁ tbl rid + countAudit l₂ tbl rid := by
  simp [countAudit, List.filter_append]

theorem countAudit_itemBlocks (items : List SaleItemRow) (rid : Nat) :
    countAudit ((items.map itemAuditBlock).flatten) "sales" rid = 0 := by
  induction items with
  | nil => simp [countAudit]
  | cons it rest ih =>
    simp only [List.map_cons, List.flatten_cons]
    rw [countAudit_append, ih]
    simp [countAudit, itemAuditBlock, List.filter]

/-- C7, amended: a successful commit appends exactly two audit entries for
the Sale insert (two audit triggers are registered on `sales`), one entry
per SaleItem insert, and two entries per product-stock UPDATE — of which
there are two per sold item, because the stock-decrement trigger itself is
registered twice. -/
theorem C7_amended (db : DB) (cart : List CartItem) (dt : DiscountType)
    (dv r ap : ℚ) (pm : PaymentMethod) (db' : DB) (sid : Nat)
    (hWF : SalesIdsFresh db)
    (h : processSale db cart dt dv r pm ap = (db', .committed sid)) :
    db'.audit_logs = db.audit_logs
      ++ [⟨"INSERT", "sales", sid⟩, ⟨"INSERT", "sales", sid⟩]
      ++ ((mkItems sid (db.next_id + 1) cart).map itemAuditBlock).flatten ∧
    countAudit db'.audit_logs "sales" sid
      = countAudit db.audit_logs "sales" sid + 2 := by
  obtain ⟨hsid, _, _, _, _, _, haudit⟩ :=
    processSale_committed_spec db cart dt dv r pm ap db' sid hWF h
  subst hsid
  refine ⟨haudit, ?_⟩
  rw [haudit, countAudit_append, countAudit_append, countAudit_itemBlocks]
  simp [countAudit, List.filter]

/-- C7, counterexample: a concrete successful commit records two audit
entries for the Sale insert, not exactly one as claimed. -/
theorem C7_counterexample :
    (processSale dbStock10 cartQty2 .flat 0 (75 / 1000) .cash 20).2
      = .committed 100 ∧
    countAudit (processSale dbStock10 cartQty2 .flat 0 (75 / 1000) .cash 20).1.audit_logs
      "sales" 100 = 2 ∧ (2 : Nat) ≠ 1 := by
  norm_num [processSale, insertSaleStmt_eq, dbStock10, cartQty2, calculateTotal,
    calculateSubtotal, calculateDiscountAmount, calculateTaxAmount, mkItems,
    insertSaleItemsStmt, validateItems, findProduct, List.find?,
    Bind.bind, Except.bind, runItemsAfter, itemAfterTriggers, calcSaleTotals,
    updateStockStmt, checkLowStock, addAudit, countAudit, List.filter]

/-- C7, witness: the amended count applied to a concrete committed sale. -/
theorem C7_witness :
    countAudit (processSale dbStock10 cartQty2 .flat 0 (75 / 1000) .cash 20).1.audit_logs
        "sales" 100
      = countAudit dbStock10.audit_logs "sales" 100 + 2 := by
  have hsnd : (processSale dbStock10 cartQty2 .flat 0 (75 / 1000) .cash 20).2
      = .committed 100 := by
    norm_num [processSale, insertSaleStmt_eq, dbStock10, cartQty2, calculateTotal,
      calculateSubtotal, calculateDiscountAmount, calculateTaxAmount, mkItems,
      insertSaleItemsStmt, validateItems, findProduct, List.find?,
      Bind.bind, Except.bind, runItemsAfter, itemAfterTriggers, calcSaleTotals,
      updateStockStmt, checkLowStock, addAudit]
  have h : processSale dbStock10 cartQty2 .flat 0 (75 / 1000) .cash 20
      = ((processSale dbStock10 cartQty2 .flat 0 (75 / 1000) .cash 20).1,
        .committed 100) := by
    conv_rhs => rw [← hsnd]
  exact (C7_amended dbStock10 cartQty2 .flat 0 (75 / 1000) 20 .cash _ 100
    (by intro s hs; simp [dbStock10] at hs) h).2

/-- C8, counterexample: for subtotal 100 and percentage value 200 the code
returns a discount of 200 while the claimed clamped formula yields 100 — the
source never clamps the percentage value. -/
theorem C8_counterexample :
    calculateDiscountAmount [⟨1, 1, 100, 100⟩] .percentage 200 = 200 ∧
    discountAmountClamped (calculateSubtotal [⟨1, 1, 100, 100⟩]) .percentage 200 = 100 ∧
    ((200 : ℚ) ≠ 100) := by
  norm_num [calculateDiscountAmount, calculateSubtotal, discountAmountClamped]

/-- C8, amended: the percentage branch returns `subtotal * value / 100` with
no clamping of the value (so a value above 100 yields a discount larger than
the subtotal whenever the subtotal is positive), and the flat branch returns
the raw value without clamping to the subtotal. -/
theorem C8_amended (cart : List CartItem) (v : ℚ) :
    calculateDiscountAmount cart .percentage v = calculateSubtotal cart * v / 100 ∧
    calculateDiscountAmount cart .flat v = v ∧
    (100 < v → 0 < calculateSubtotal cart →
      calculateSubtotal cart < calculateDiscountAmount cart .percentage v) := by
  refine ⟨by simp [calculateDiscountAmount], by simp [calculateDiscountAmount], ?_⟩
  intro hv hs
  simp [calculateDiscountAmount]
  rw [lt_div_iff₀ (by norm_num : (0 : ℚ) < 100)]
  nlinarith

/-- C8, witness: the amended claim at subtotal 10 and percentage value 150. -/
theorem C8_witness :
    calculateDiscountAmount [⟨1, 1, 10, 10⟩] .percentage 150
      = calculateSubtotal [⟨1, 1, 10, 10⟩] * 150 / 100 ∧
    calculateSubtotal [⟨1, 1, 10, 10⟩]
      < calculateDiscountAmount [⟨1, 1, 10, 10⟩] .percentage 150 :=
  ⟨(C8_amended [⟨1, 1, 10, 10⟩] 150).1,
    (C8_amended [⟨1, 1, 10, 10⟩] 150).2.2 (by norm_num)
      (by norm_num [calculateSubtotal])⟩

/-- C9: a stock UPDATE that leaves the product's stock strictly above its
threshold succeeds and leaves every `low_stock_alerts` row exactly as it was
(the final `check_low_stock` has no clear/resolve branch), whatever alerts —
acknowledged or not — already exist. -/
theorem C9_alerts_frame (db : DB) (pid : Nat) (qty : Int) (p : Product)
    (hp : findProduct db.products pid = some p)
    (hthr : p.low_stock_threshold < p.stock_quantity - qty) :
    ∃ db', updateStockStmt db pid qty = .ok db' ∧
      db'.alerts = db.alerts ∧ db'.sales = db.sales ∧
      db'.sale_items = db.sale_items := by
  have hnot : ¬ (p.stock_quantity - qty ≤ p.low_stock_threshold) := not_le.mpr hthr
  refine ⟨{ db with
      products := db.products.map (fun q =>
        if q.id = pid then { q with stock_quantity := p.stock_quantity - qty } else q),
      audit_logs := db.audit_logs
        ++ [⟨"UPDATE", "products", pid⟩, ⟨"UPDATE", "products", pid⟩] },
    ?_, rfl, rfl, rfl⟩
  unfold updateStockStmt
  rw [hp]
  simp [checkLowStock, hnot, addAudit, Bind.bind, Except.bind, List.append_assoc]

/-- C9, witness: restocking-style update on a product that still has a live
unacknowledged alert; the alert row is untouched. -/
theorem C9_witness :
    ∃ db', updateStockStmt dbRestocked 1 5 = .ok db' ∧
      db'.alerts = dbRestocked.alerts ∧ db'.sales = dbRestocked.sales ∧
      db'.sale_items = dbRestocked.sale_items :=
  C9_alerts_frame dbRestocked 1 5 ⟨1, 50, 10⟩ (by decide) (by decide)

/-- C10, counterexample: acknowledging never records the acknowledging actor
(`acknowledged_by` stays null — the hook does not even take an actor), and
re-acknowledging an already-acknowledged alert is not a no-op: it overwrites
the acknowledgement timestamp. -/
theorem C10_counterexample :
    ((acknowledgeAlert dbAlert 1 5).alerts.map AlertRow.acknowledged_by = [none]) ∧
    (acknowledgeAlert (acknowledgeAlert dbAlert 1 5) 1 9).alerts
      ≠ (acknowledgeAlert dbAlert 1 5).alerts := by
  simp [acknowledgeAlert, dbAlert]

/-- C10, amended: `acknowledgeAlert` sets `is_acknowledged` and the
timestamp on the matching alert, leaves `acknowledged_by` (and every other
alert) unchanged, and acknowledging twice is not an error — the second call
simply overwrites the timestamp, as if only it had happened. -/
theorem C10_amended (db : DB) (alertId t₁ t₂ : Nat) :
    (∀ a ∈ db.alerts, a.id ≠ alertId → a ∈ (acknowledgeAlert db alertId t₁).alerts) ∧
    (∀ a ∈ db.alerts, a.id = alertId →
      { a with is_acknowledged := true, acknowledged_at := some t₁ }
        ∈ (acknowledgeAlert db alertId t₁).alerts) ∧
    acknowledgeAlert (acknowledgeAlert db alertId t₁) alertId t₂
      = acknowledgeAlert db alertId t₂ := by
  refine ⟨?_, ?_, ?_⟩
  · intro a ha hne
    have : (if a.id = alertId then
        { a with is_acknowledged := true, acknowledged_at := some t₁ } else a) = a := by
      simp [hne]
    exact this ▸ List.mem_map_of_mem _ ha
  · intro a ha heq
    have : (if a.id = alertId then
        { a with is_acknowledged := true, acknowledged_at := some t₁ } else a)
        = { a with is_acknowledged := true, acknowledged_at := some t₁ } := by
      simp [heq]
    exact this ▸ List.mem_map_of_mem _ ha
  · unfold acknowledgeAlert
    simp only [List.map_map]
    congr 1
    congr 1
    funext a
    by_cases ha : a.id = alertId <;> simp [Function.comp, ha]

/-- C10, witness: the amended claim at the concrete alert database. -/
theorem C10_witness :
    (⟨1, 1, 5, 10, true, none, some 5⟩ : AlertRow)
      ∈ (acknowledgeAlert dbAlert 1 5).alerts ∧
    acknowledgeAlert (acknowledgeAlert dbAlert 1 5) 1 9
      = acknowledgeAlert dbAlert 1 9 :=
  ⟨(C10_amended dbAlert 1 5 9).2.1 ⟨1, 1, 5, 10, false, none, none⟩ (by decide) rfl,
    (C10_amended dbAlert 1 5 9).2.2⟩
